import Mathlib

/-!
# `www/Media.js` of cordova-plugin-media: registry and status dispatch

A shallow embedding of the JavaScript module `src/www/Media.js`.

* JavaScript values are the type `JSVal`.  Numbers are the integers (which
  doubles represent exactly) and `NaN`; `obj` is a plain non-array object
  such as one decoded from JSON; `fn k` is a function supplied by the
  caller and `media r` a `Media` object.
* `Media` objects live in a heap (`World.heap`); a reference is an index
  into it, so that the closures `var me = this` keep addressing the object
  they were created for.
* The module variable `mediaObjects` is the association list
  `World.mediaObjects` of its own properties, from identifier to reference.
  Identifiers are property keys, hence strings.  Identifiers that name a
  member every plain object inherits from `Object.prototype` (such as
  `constructor` or `__proto__`) are outside the model: it resolves an
  identifier among the own properties only.
* `exec`, invocations of caller-supplied functions and console output are
  effects on the outside world; they are appended to `World.trace` in the
  order in which they happen.  A caller-supplied function is a black box:
  invoking it is recorded and returns normally.
* A computation is a function from the world to an outcome (a result or a
  thrown error) together with the world it leaves behind, so that what a
  function did before it threw is kept.
-/

namespace MediaJs

/-! ## Values -/

/-- JavaScript values handled by the module. -/
inductive JSVal where
  | undefined
  | null
  | bool (b : Bool)
  | num (n : Int)
  | nan
  | str (s : String)
  | fn (k : Nat)
  | obj (k : Nat)
  | media (r : Nat)
  deriving DecidableEq, Repr

namespace JSVal

/-- ToBoolean: the truthiness test of `if (v)` and `a && b`. -/
def truthy : JSVal → Bool
  | undefined => false
  | null => false
  | bool b => b
  | num n => n != 0
  | nan => false
  | str s => s != ""
  | fn _ => true
  | obj _ => true
  | media _ => true

/-- Strict equality `a === b`, as used by `switch`. -/
def strictEq (a b : JSVal) : Bool :=
  match a, b with
  | nan, _ => false
  | _, nan => false
  | a, b => a == b

/-- The name `utils.typeName(v)` yields, which is the class shown by
`Object.prototype.toString`. -/
def typeName : JSVal → String
  | undefined => "Undefined"
  | null => "Null"
  | bool _ => "Boolean"
  | num _ => "Number"
  | nan => "Number"
  | str _ => "String"
  | fn _ => "Function"
  | obj _ => "Object"
  | media _ => "Object"

end JSVal

/-- What the module takes from its host environment. -/
structure Host where
  /-- Value of `cordova.platformId`. -/
  platformId : String
  /-- Result of the n-th call (counted from 0) of `utils.createUUID()`. -/
  createUUID : Nat → String
  /-- StringToNumber, the conversion of a string to a number. -/
  stringToNumber : String → JSVal
  /-- Whether `console.error` is defined, which the module tests before use. -/
  consoleError : Bool

/-- The conversion `Number(v)`.  A plain object or a function converts
through its string form, which is not a numeric literal. -/
def Number (host : Host) : JSVal → JSVal
  | .undefined => .nan
  | .null => .num 0
  | .bool b => .num (if b then 1 else 0)
  | .num n => .num n
  | .nan => .nan
  | .str s => host.stringToNumber s
  | .fn _ => .nan
  | .obj _ => .nan
  | .media _ => .nan

/-- Loose equality `v == n` against a number literal `n`: `null` and
`undefined` equal no number, every other value is compared as a number. -/
def looseEqNum (host : Host) (v : JSVal) (n : Int) : Bool :=
  match v with
  | .undefined => false
  | .null => false
  | v => Number host v == .num n

/-- Loose equality `v == s` against a string literal `s` that is not a
numeric literal (so that it converts to `NaN`, which equals no number): only
the same string is equal to it. -/
def looseEqText (v : JSVal) (s : String) : Bool :=
  match v with
  | .str t => t == s
  | _ => false

/-! ## Objects, effects and the world -/

/-- A `Media` object: the properties the constructor sets on `this`.
`node` and `_status` read as `undefined` while they are not set. -/
structure MediaObj where
  id : String
  node : JSVal
  _status : JSVal
  src : JSVal
  successCallback : JSVal
  errorCallback : JSVal
  statusCallback : JSVal
  createCallback : JSVal
  _duration : JSVal
  _position : JSVal
  deriving DecidableEq, Repr

/-- A continuation handed to `exec`: either a value passed through as it is
or one of the function expressions written in the module, closed over the
variables it mentions. -/
inductive Callback where
  /-- A value passed as it is (`null`, `this.errorCallback`, `fail`, ...). -/
  | val (v : JSVal)
  /-- Closure `function () { me._position = 0; }` of `stop`. -/
  | stopDone (me : Nat)
  /-- Closure `function (p) { me._position = p; }` of `seekTo`. -/
  | seekDone (me : Nat)
  /-- Closure `function (p) { me._position = p; success(p); }` of `getCurrentPosition`. -/
  | positionDone (me : Nat) (success : JSVal)
  /-- Closure `function (p) { success(p); }` of `getCurrentAmplitude`. -/
  | amplitudeDone (success : JSVal)
  deriving DecidableEq, Repr

/-- An effect on the outside world. -/
inductive Event where
  /-- A command `exec(success, fail, service, action, args)` on the channel. -/
  | exec (success fail : Callback) (service action : String) (args : List JSVal)
  /-- An invocation `f(args)` of the caller-supplied function `fn f`. -/
  | call (f : Nat) (args : List JSVal)
  /-- Output `console.error(text + shown)`. -/
  | consoleError (text : String) (shown : JSVal)
  /-- Output `console.warn(args)`. -/
  | consoleWarn (args : List JSVal)
  deriving DecidableEq, Repr

/-- Something thrown. -/
inductive JSError where
  /-- Thrown by `argscheck.checkArgs` on a malformed argument list. -/
  | invalidArgument
  /-- A TypeError: a call of something that is not a function, or a
  property read on `undefined`. -/
  | typeError
  /-- An exception `new Error(text + shown)`. -/
  | error (text : String) (shown : JSVal)
  /-- A reference that addresses no allocated object; no JavaScript
  execution produces one. -/
  | noSuchObject
  deriving DecidableEq, Repr

/-- State of the module and record of its effects. -/
structure World where
  /-- Every `Media` object allocated so far; a reference is an index. -/
  heap : List MediaObj
  /-- Own properties of `mediaObjects`. -/
  mediaObjects : List (String × Nat)
  /-- Number of identifiers generated so far. -/
  uuids : Nat
  /-- Effects so far, oldest first. -/
  trace : List Event
  deriving DecidableEq, Repr

/-- World when the module has just been loaded: `var mediaObjects = {}`. -/
def World.initial : World :=
  { heap := [], mediaObjects := [], uuids := 0, trace := [] }

/-- A computation: from the world to an outcome and the world left behind. -/
def JS (α : Type) : Type := World → Except JSError α × World

namespace JS

/-- Return a value without touching the world. -/
def ret {α : Type} (a : α) : JS α := fun w => (Except.ok a, w)

/-- Run `m`, then `f` on its result; a throw of `m` ends the computation. -/
def andThen {α β : Type} (m : JS α) (f : α → JS β) : JS β := fun w =>
  match m w with
  | (Except.ok a, w1) => f a w1
  | (Except.error e, w1) => (Except.error e, w1)

instance : Monad JS where
  pure := ret
  bind := andThen

/-- Throw `e`. -/
def throw {α : Type} (e : JSError) : JS α := fun w => (Except.error e, w)

/-- Read the world. -/
def world : JS World := fun w => (Except.ok w, w)

/-- Append an effect to the trace. -/
def emit (e : Event) : JS Unit := fun w =>
  (Except.ok (), { w with trace := w.trace ++ [e] })

/-- Read the object behind a reference. -/
def deref (r : Nat) : JS MediaObj := fun w =>
  match w.heap[r]? with
  | some o => (Except.ok o, w)
  | none => (Except.error JSError.noSuchObject, w)

/-- Assignment `r._position = v`. -/
def setPosition (r : Nat) (v : JSVal) : JS Unit := fun w =>
  match w.heap[r]? with
  | some o => (Except.ok (), { w with heap := w.heap.set r { o with _position := v } })
  | none => (Except.error JSError.noSuchObject, w)

/-- Assignment `r._duration = v`. -/
def setDuration (r : Nat) (v : JSVal) : JS Unit := fun w =>
  match w.heap[r]? with
  | some o => (Except.ok (), { w with heap := w.heap.set r { o with _duration := v } })
  | none => (Except.error JSError.noSuchObject, w)

/-- A call `f(args)` of a value: a caller-supplied function is invoked,
anything else is not callable. -/
def call (f : JSVal) (args : List JSVal) : JS Unit :=
  match f with
  | .fn k => emit (Event.call k args)
  | _ => throw JSError.typeError

end JS

/-- The channel function `exec(success, fail, service, action, args)`: the
command is handed to the native side and nothing else happens now. -/
def exec (success fail : Callback) (service action : String) (args : List JSVal) : JS Unit :=
  JS.emit (Event.exec success fail service action args)

/-- Property read `mediaObjects[id]`, resolved among the own properties of the
registry: `none` stands for `undefined`. -/
def lookup (w : World) (id : String) : Option Nat :=
  w.mediaObjects.lookup id

/-- Assignment `mediaObjects[id] = r`. -/
def register (id : String) (r : Nat) : JS Unit := fun w =>
  (Except.ok (), { w with mediaObjects := (id, r) :: w.mediaObjects.filter (fun e => e.1 != id) })

/-! ## Argument check -/

/-- Modelled from the spec: `argscheck.checkArgs` belongs to the cordova
runtime and is not among the sources of this module.  This is the class name
a letter of the format string stands for. -/
def argscheck.typeMap : Char → Option String
  | 'A' => some "Array"
  | 'D' => some "Date"
  | 'N' => some "Number"
  | 'S' => some "String"
  | 'F' => some "Function"
  | 'O' => some "Object"
  | _ => none

/-- Modelled from the spec: whether the argument `arg` is accepted at a
position whose letter in the format string is `c`.  An asterisk accepts
anything, an upper-case letter accepts a missing argument (`null` or
`undefined`), and otherwise the class of the argument has to be the one
the letter stands for. -/
def argscheck.accepts (c : Char) (arg : JSVal) : Bool :=
  if c == '*' then true
  else if (arg == JSVal.null || arg == JSVal.undefined) && c == c.toUpper then true
  else argscheck.typeMap c.toUpper == some arg.typeName

/-- The argument `arguments[i]` of a call; one that was not passed reads as
`undefined`. -/
def arg (args : List JSVal) (i : Nat) : JSVal :=
  args.getD i JSVal.undefined

/-- Modelled from the spec: whether the argument list `args` is well formed
for the format string `spec`, that is every position of the format accepts
its argument. -/
def argscheck.conforms (spec : String) (args : List JSVal) : Bool :=
  spec.toList.enum.all (fun ic => argscheck.accepts ic.2 (arg args ic.1))

/-- Modelled from the spec: `argscheck.checkArgs(spec, functionName, args)`.
A malformed argument list (an argument of the wrong type, or a required one
that is missing) is rejected with the `InvalidArgument` error. -/
def argscheck.checkArgs (spec : String) (_functionName : String) (args : List JSVal) : JS Unit :=
  if argscheck.conforms spec args then
    JS.ret ()
  else
    JS.throw JSError.invalidArgument

/-- The generator `utils.createUUID()`. -/
def utils.createUUID (host : Host) : JS String := fun w =>
  (Except.ok (host.createUUID w.uuids), { w with uuids := w.uuids + 1 })

/-- Allocation of the object under construction; its reference is returned. -/
def JS.alloc (o : MediaObj) : JS Nat := fun w =>
  (Except.ok w.heap.length, { w with heap := w.heap ++ [o] })

/-! ## The module -/

/-- The constructor `new Media(src, successCallback, errorCallback,
statusCallback, createCallback, mediaId)`; `args` is the `arguments` object.
The reference of the new object is returned. -/
def Media (host : Host) (args : List JSVal) : JS Nat := do
  argscheck.checkArgs "sFFFFS" "Media" args
  let src := arg args 0
  let successCallback := arg args 1
  let errorCallback := arg args 2
  let statusCallback := arg args 3
  let createCallback := arg args 4
  let mediaId := arg args 5
  let w ← JS.world
  -- `if (mediaId) { ... } else { this.id = utils.createUUID(); }`: after the
  -- check `mediaId` is a string, `null` or `undefined`
  let (id, node, status) ←
    match mediaId with
    | JSVal.str e =>
      if e != "" then
        match lookup w e with
        | some r => do
          let old ← JS.deref r
          pure (e, old.node, old._status)
        | none => pure (e, JSVal.undefined, JSVal.undefined)
      else do
        let g ← utils.createUUID host
        pure (g, JSVal.undefined, JSVal.undefined)
    | _ => do
      let g ← utils.createUUID host
      pure (g, JSVal.undefined, JSVal.undefined)
  let this ← JS.alloc
    { id := id, node := node, _status := status, src := src,
      successCallback := successCallback, errorCallback := errorCallback,
      statusCallback := statusCallback, createCallback := createCallback,
      _duration := JSVal.num (-1), _position := JSVal.num (-1) }
  register id this
  exec (Callback.val createCallback) (Callback.val errorCallback) "Media" "create"
    [JSVal.str id, src]
  pure this

def Media.MEDIA_STATE : JSVal := JSVal.num 1
def Media.MEDIA_DURATION : JSVal := JSVal.num 2
def Media.MEDIA_POSITION : JSVal := JSVal.num 3
def Media.MEDIA_ERROR : JSVal := JSVal.num 9

def Media.MEDIA_NONE : Int := 0
def Media.MEDIA_STARTING : Int := 1
def Media.MEDIA_RUNNING : Int := 2
def Media.MEDIA_PAUSED : Int := 3
def Media.MEDIA_STOPPED : Int := 4

/-- Static `Media.createItem`. -/
def Media.createItem (host : Host) (args : List JSVal) (onIdCallback : JSVal) : JS Unit := do
  let newMedia ← Media host (args.take 6)
  if onIdCallback.truthy then
    let o ← JS.deref newMedia
    JS.call onIdCallback [JSVal.str o.id]

/-- Static `Media.get`. -/
def Media.get (id : String) : JS JSVal := do
  let w ← JS.world
  match lookup w id with
  | some r => pure (JSVal.media r)
  | none => pure JSVal.undefined

/-- Static `Media.getAsync`. -/
def Media.getAsync (id : String) (getCallback : JSVal) : JS Unit := do
  if getCallback.truthy then
    let m ← Media.get id
    JS.call getCallback [m]

/-- Static `Media.getAll`. -/
def Media.getAll : JS (List (String × Nat)) := do
  let w ← JS.world
  pure w.mediaObjects

/-- Method `play(options)`. -/
def Media.prototype.play (me : Nat) (options : JSVal) : JS Unit := do
  let this ← JS.deref me
  exec (Callback.val JSVal.null) (Callback.val JSVal.null) "Media" "startPlayingAudio"
    [JSVal.str this.id, this.src, options]

/-- Method `stop()`. -/
def Media.prototype.stop (me : Nat) : JS Unit := do
  let this ← JS.deref me
  exec (Callback.stopDone me) (Callback.val this.errorCallback) "Media" "stopPlayingAudio"
    [JSVal.str this.id]

/-- Method `seekTo(milliseconds)`. -/
def Media.prototype.seekTo (me : Nat) (milliseconds : JSVal) : JS Unit := do
  let this ← JS.deref me
  exec (Callback.seekDone me) (Callback.val this.errorCallback) "Media" "seekToAudio"
    [JSVal.str this.id, milliseconds]

/-- Method `pause()`. -/
def Media.prototype.pause (me : Nat) : JS Unit := do
  let this ← JS.deref me
  exec (Callback.val JSVal.null) (Callback.val this.errorCallback) "Media" "pausePlayingAudio"
    [JSVal.str this.id]

/-- Method `getDuration()`. -/
def Media.prototype.getDuration (me : Nat) : JS JSVal := do
  let this ← JS.deref me
  pure this._duration

/-- Method `getCurrentPosition(success, fail)`. -/
def Media.prototype.getCurrentPosition (me : Nat) (success fail : JSVal) : JS Unit := do
  let this ← JS.deref me
  exec (Callback.positionDone me success) (Callback.val fail) "Media" "getCurrentPositionAudio"
    [JSVal.str this.id]

/-- Method `startRecord()`. -/
def Media.prototype.startRecord (me : Nat) : JS Unit := do
  let this ← JS.deref me
  exec (Callback.val JSVal.null) (Callback.val this.errorCallback) "Media" "startRecordingAudio"
    [JSVal.str this.id, this.src]

/-- Method `stopRecord()`. -/
def Media.prototype.stopRecord (me : Nat) : JS Unit := do
  let this ← JS.deref me
  exec (Callback.val JSVal.null) (Callback.val this.errorCallback) "Media" "stopRecordingAudio"
    [JSVal.str this.id]

/-- Method `pauseRecord()`. -/
def Media.prototype.pauseRecord (me : Nat) : JS Unit := do
  let this ← JS.deref me
  exec (Callback.val JSVal.null) (Callback.val this.errorCallback) "Media" "pauseRecordingAudio"
    [JSVal.str this.id]

/-- Method `resumeRecord()`. -/
def Media.prototype.resumeRecord (me : Nat) : JS Unit := do
  let this ← JS.deref me
  exec (Callback.val JSVal.null) (Callback.val this.errorCallback) "Media" "resumeRecordingAudio"
    [JSVal.str this.id]

/-- Method `release()`. -/
def Media.prototype.release (me : Nat) : JS Unit := do
  let this ← JS.deref me
  exec (Callback.val JSVal.null) (Callback.val this.errorCallback) "Media" "release"
    [JSVal.str this.id]

/-- Method `setVolume(volume)`. -/
def Media.prototype.setVolume (me : Nat) (volume : JSVal) : JS Unit := do
  let this ← JS.deref me
  exec (Callback.val JSVal.null) (Callback.val JSVal.null) "Media" "setVolume"
    [JSVal.str this.id, volume]

/-- Method `setRate(rate)`. -/
def Media.prototype.setRate (host : Host) (me : Nat) (rate : JSVal) : JS Unit := do
  if host.platformId == "ios" then
    let this ← JS.deref me
    exec (Callback.val JSVal.null) (Callback.val JSVal.null) "Media" "setRate"
      [JSVal.str this.id, rate]
  else
    JS.emit (Event.consoleWarn
      [JSVal.str "media.setRate method is currently not supported for",
       JSVal.str host.platformId, JSVal.str "platform."])

/-- Method `getCurrentAmplitude(success, fail)`. -/
def Media.prototype.getCurrentAmplitude (me : Nat) (success fail : JSVal) : JS Unit := do
  let this ← JS.deref me
  exec (Callback.amplitudeDone success) (Callback.val fail) "Media" "getCurrentAmplitudeAudio"
    [JSVal.str this.id]

/-- Static `Media.playItem`. -/
def Media.playItem (id : String) : JS Unit := do
  let w ← JS.world
  match lookup w id with
  | some media => Media.prototype.play media JSVal.undefined
  | none => pure ()

/-- Static `Media.stopItem`. -/
def Media.stopItem (id : String) : JS Unit := do
  let w ← JS.world
  match lookup w id with
  | some media => Media.prototype.stop media
  | none => pure ()

/-- Static `Media.seekItem`. -/
def Media.seekItem (id : String) (milliseconds : JSVal) : JS Unit := do
  let w ← JS.world
  match lookup w id with
  | some media => Media.prototype.seekTo media milliseconds
  | none => pure ()

/-- Static `Media.pauseItem`. -/
def Media.pauseItem (id : String) : JS Unit := do
  let w ← JS.world
  match lookup w id with
  | some media => Media.prototype.pause media
  | none => pure ()

/-- Static `Media.getDurationOfItem`. -/
def Media.getDurationOfItem (id : String) (getCallback : JSVal) : JS Unit := do
  let w ← JS.world
  match lookup w id with
  | some media =>
    if getCallback.truthy then
      let d ← Media.prototype.getDuration media
      JS.call getCallback [d]
  | none => pure ()

/-- Static `Media.getItemCurrentPosition`. -/
def Media.getItemCurrentPosition (id : String) (success fail : JSVal) : JS Unit := do
  let w ← JS.world
  match lookup w id with
  | some media => Media.prototype.getCurrentPosition media success fail
  | none => pure ()

/-- Static `Media.releaseItem`. -/
def Media.releaseItem (id : String) : JS Unit := do
  let w ← JS.world
  match lookup w id with
  | some media => Media.prototype.release media
  | none => pure ()

/-- Static `Media.setItemVolume`. -/
def Media.setItemVolume (id : String) (volume : JSVal) : JS Unit := do
  let w ← JS.world
  match lookup w id with
  | some media => Media.prototype.setVolume media volume
  | none => pure ()

/-- Static `Media.getItemAmplitude`. -/
def Media.getItemAmplitude (id : String) (success fail : JSVal) : JS Unit := do
  let w ← JS.world
  match lookup w id with
  | some media => Media.prototype.getCurrentAmplitude media success fail
  | none => pure ()

/-- The dispatcher `Media.onStatus(id, msgType, value)`. -/
def Media.onStatus (host : Host) (id : String) (msgType value : JSVal) : JS Unit := do
  let w ← JS.world
  match lookup w id with
  | some media =>
    if msgType.strictEq Media.MEDIA_STATE then do
      let m ← JS.deref media
      if m.statusCallback.truthy then
        JS.call m.statusCallback [value]
      if looseEqNum host value Media.MEDIA_STOPPED then
        let m ← JS.deref media
        if m.successCallback.truthy then
          JS.call m.successCallback []
    else if msgType.strictEq Media.MEDIA_DURATION then
      JS.setDuration media value
    else if msgType.strictEq Media.MEDIA_ERROR then do
      let m ← JS.deref media
      if m.errorCallback.truthy then
        JS.call m.errorCallback [value]
    else if msgType.strictEq Media.MEDIA_POSITION then
      JS.setPosition media (Number host value)
    else if host.consoleError then
      JS.emit (Event.consoleError "Unhandled Media.onStatus :: " msgType)
  | none =>
    if host.consoleError then
      JS.emit (Event.consoleError "Received Media.onStatus callback for unknown media :: "
        (JSVal.str id))

/-- The part `msg.status` of a message. -/
structure Status where
  id : String
  msgType : JSVal
  value : JSVal
  deriving DecidableEq, Repr

/-- A message of the native side; `status` is `none` when the message
carries no `status` object. -/
structure Message where
  action : JSVal
  status : Option Status
  deriving DecidableEq, Repr

/-- The subscriber `onMessageFromNative(msg)`. -/
def onMessageFromNative (host : Host) (msg : Message) : JS Unit :=
  if looseEqText msg.action "status" then
    match msg.status with
    | some s => Media.onStatus host s.id s.msgType s.value
    | none => JS.throw JSError.typeError
  else
    JS.throw (JSError.error "Unknown media action" msg.action)

/-- The channel completes a command by invoking one of its continuations
with the reported value `p`; a continuation that is missing (`null` or
`undefined`) is skipped. -/
def Callback.run (c : Callback) (p : JSVal) : JS Unit :=
  match c with
  | Callback.val v => if v.truthy then JS.call v [p] else pure ()
  | Callback.stopDone me => JS.setPosition me (JSVal.num 0)
  | Callback.seekDone me => JS.setPosition me p
  | Callback.positionDone me success => do
    JS.setPosition me p
    JS.call success [p]
  | Callback.amplitudeDone success => JS.call success [p]

/-! ## Runs of the module -/

/-- One call into the module: by the application (the constructor, a method
of a `Media` object, a static function), or by the channel (a notification,
or the completion of a command through one of its continuations). -/
inductive Op where
  | construct (args : List JSVal)
  | createItem (args : List JSVal) (onIdCallback : JSVal)
  | get (id : String)
  | getAsync (id : String) (getCallback : JSVal)
  | getAll
  | play (me : Nat) (options : JSVal)
  | stop (me : Nat)
  | seekTo (me : Nat) (milliseconds : JSVal)
  | pause (me : Nat)
  | getDuration (me : Nat)
  | getCurrentPosition (me : Nat) (success fail : JSVal)
  | startRecord (me : Nat)
  | stopRecord (me : Nat)
  | pauseRecord (me : Nat)
  | resumeRecord (me : Nat)
  | release (me : Nat)
  | setVolume (me : Nat) (volume : JSVal)
  | setRate (me : Nat) (rate : JSVal)
  | getCurrentAmplitude (me : Nat) (success fail : JSVal)
  | playItem (id : String)
  | stopItem (id : String)
  | seekItem (id : String) (milliseconds : JSVal)
  | pauseItem (id : String)
  | getDurationOfItem (id : String) (getCallback : JSVal)
  | getItemCurrentPosition (id : String) (success fail : JSVal)
  | releaseItem (id : String)
  | setItemVolume (id : String) (volume : JSVal)
  | getItemAmplitude (id : String) (success fail : JSVal)
  | onStatus (id : String) (msgType value : JSVal)
  | onMessageFromNative (msg : Message)
  | complete (c : Callback) (p : JSVal)
  deriving DecidableEq, Repr

/-- The world a call leaves behind, whether it returned or threw. -/
def Op.run (host : Host) (op : Op) (w : World) : World :=
  match op with
  | Op.construct args => (Media host args w).2
  | Op.createItem args onIdCallback => (Media.createItem host args onIdCallback w).2
  | Op.get id => (Media.get id w).2
  | Op.getAsync id getCallback => (Media.getAsync id getCallback w).2
  | Op.getAll => (Media.getAll w).2
  | Op.play me options => (Media.prototype.play me options w).2
  | Op.stop me => (Media.prototype.stop me w).2
  | Op.seekTo me milliseconds => (Media.prototype.seekTo me milliseconds w).2
  | Op.pause me => (Media.prototype.pause me w).2
  | Op.getDuration me => (Media.prototype.getDuration me w).2
  | Op.getCurrentPosition me success fail =>
    (Media.prototype.getCurrentPosition me success fail w).2
  | Op.startRecord me => (Media.prototype.startRecord me w).2
  | Op.stopRecord me => (Media.prototype.stopRecord me w).2
  | Op.pauseRecord me => (Media.prototype.pauseRecord me w).2
  | Op.resumeRecord me => (Media.prototype.resumeRecord me w).2
  | Op.release me => (Media.prototype.release me w).2
  | Op.setVolume me volume => (Media.prototype.setVolume me volume w).2
  | Op.setRate me rate => (Media.prototype.setRate host me rate w).2
  | Op.getCurrentAmplitude me success fail =>
    (Media.prototype.getCurrentAmplitude me success fail w).2
  | Op.playItem id => (Media.playItem id w).2
  | Op.stopItem id => (Media.stopItem id w).2
  | Op.seekItem id milliseconds => (Media.seekItem id milliseconds w).2
  | Op.pauseItem id => (Media.pauseItem id w).2
  | Op.getDurationOfItem id getCallback => (Media.getDurationOfItem id getCallback w).2
  | Op.getItemCurrentPosition id success fail =>
    (Media.getItemCurrentPosition id success fail w).2
  | Op.releaseItem id => (Media.releaseItem id w).2
  | Op.setItemVolume id volume => (Media.setItemVolume id volume w).2
  | Op.getItemAmplitude id success fail => (Media.getItemAmplitude id success fail w).2
  | Op.onStatus id msgType value => (Media.onStatus host id msgType value w).2
  | Op.onMessageFromNative msg => (MediaJs.onMessageFromNative host msg w).2
  | Op.complete c p => (c.run p w).2

/-- The world after a sequence of calls, made one after the other. -/
def runAll (host : Host) (ops : List Op) (w : World) : World :=
  ops.foldl (fun w1 op => op.run host w1) w

/-- Whether a call delivers a Duration notification for the identifier `id`. -/
def Op.notifiesDuration (id : String) : Op → Bool
  | Op.onStatus id1 msgType _ => id1 == id && msgType.strictEq Media.MEDIA_DURATION
  | Op.onMessageFromNative msg =>
    looseEqText msg.action "status" &&
      (match msg.status with
       | some s => s.id == id && s.msgType.strictEq Media.MEDIA_DURATION
       | none => false)
  | _ => false

/-! ## Vocabulary of the statements -/

/-- Whether a value can be called: it is a function. -/
def JSVal.callable : JSVal → Bool
  | JSVal.fn _ => true
  | _ => false

/-- What invoking the callback `cb` with `args` adds to the trace when the
callback is a function, and nothing when there is none. -/
def invocation (cb : JSVal) (args : List JSVal) : List Event :=
  match cb with
  | JSVal.fn k => [Event.call k args]
  | _ => []

/-- Whether an effect is an invocation of a caller-supplied function. -/
def Event.isCall : Event → Bool
  | Event.call _ _ => true
  | _ => false

/-- Whether an effect is a command on the channel. -/
def Event.isExec : Event → Bool
  | Event.exec _ _ _ _ _ => true
  | _ => false

/-- The callbacks a notification may invoke are functions when present. -/
def MediaObj.callbacksOK (o : MediaObj) : Bool :=
  (!o.statusCallback.truthy || o.statusCallback.callable) &&
  (!o.successCallback.truthy || o.successCallback.callable) &&
  (!o.errorCallback.truthy || o.errorCallback.callable)

/-- Every entry of the registry refers to an allocated object that carries
the identifier it is registered under. -/
def World.regOK (w : World) : Bool :=
  w.mediaObjects.all (fun e =>
    match w.heap[e.2]? with
    | some o => o.id == e.1
    | none => false)

/-- From `w` to `w1` the registry is the same, every object has kept its
identifier, and the object at `r`, if there is one, has kept its cached
duration. -/
def World.Keeps (r : Nat) (w w1 : World) : Prop :=
  w1.mediaObjects = w.mediaObjects ∧
  w1.heap.map MediaObj.id = w.heap.map MediaObj.id ∧
  (w1.heap[r]?).map MediaObj._duration = (w.heap[r]?).map MediaObj._duration

/-- A computation that, from any world, keeps the registry, the identifiers
and the cached duration of the object at `r`. -/
def JS.Harmless {α : Type} (r : Nat) (m : JS α) : Prop :=
  ∀ w, World.Keeps r w (m w).2

/-- A computation that, from any world, changes neither an object nor the
registry. -/
def JS.Quiet {α : Type} (m : JS α) : Prop :=
  ∀ w, (m w).2.heap = w.heap ∧ (m w).2.mediaObjects = w.mediaObjects

/-- In a world with a consistent registry, the object at `r` carries the
identifier `id` and the cached duration `d`. -/
def World.Holds (id : String) (r : Nat) (d : JSVal) (w : World) : Prop :=
  w.regOK = true ∧ ∃ o, w.heap[r]? = some o ∧ o.id = id ∧ o._duration = d

/-! ## Concrete hosts and scenarios -/

/-- A host on Android whose generator yields `uuid-`, `uuid-x`, `uuid-xx`, ... -/
def Example.android : Host :=
  { platformId := "android"
    createUUID := fun n => "uuid-" ++ String.mk (List.replicate n 'x')
    stringToNumber := fun _ => JSVal.nan
    consoleError := true }

/-- The same host on iOS. -/
def Example.ios : Host := { Example.android with platformId := "ios" }

/-- Arguments `("a.mp3", fn 1, fn 2, fn 3, fn 4, "m1")` of a construction. -/
def Example.argsA : List JSVal :=
  [JSVal.str "a.mp3", JSVal.fn 1, JSVal.fn 2, JSVal.fn 3, JSVal.fn 4, JSVal.str "m1"]

/-- Arguments `("b.mp3", fn 5, fn 6, fn 7, fn 8, "m1")` of a second construction
under the same identifier. -/
def Example.argsB : List JSVal :=
  [JSVal.str "b.mp3", JSVal.fn 5, JSVal.fn 6, JSVal.fn 7, JSVal.fn 8, JSVal.str "m1"]

/-- World after `new Media("a.mp3", fn 1, fn 2, fn 3, fn 4, "m1")` in a fresh
module: object 0 is registered under `m1`. -/
def Example.one : World := (Media Example.android Example.argsA World.initial).2

/-- The object that construction builds. -/
def Example.objA : MediaObj :=
  { id := "m1", node := JSVal.undefined, _status := JSVal.undefined,
    src := JSVal.str "a.mp3", successCallback := JSVal.fn 1, errorCallback := JSVal.fn 2,
    statusCallback := JSVal.fn 3, createCallback := JSVal.fn 4,
    _duration := JSVal.num (-1), _position := JSVal.num (-1) }

/-- Arguments `("a.mp3", fn 1, fn 2, fn 3, fn 4, "")` of a construction whose
`mediaId` is the empty string. -/
def Example.argsEmpty : List JSVal :=
  [JSVal.str "a.mp3", JSVal.fn 1, JSVal.fn 2, JSVal.fn 3, JSVal.fn 4, JSVal.str ""]

/-- Arguments `("a.mp3", fn 1, 7)`, whose error callback is a number. -/
def Example.argsBad : List JSVal :=
  [JSVal.str "a.mp3", JSVal.fn 1, JSVal.num 7]

/-- A message whose action is `pause`, for the registered identifier `m1`. -/
def Example.pauseMsg : Message :=
  { action := JSVal.str "pause"
    status := some { id := "m1", msgType := Media.MEDIA_STATE, value := JSVal.num Media.MEDIA_PAUSED } }

/-- A status message for the identifier `zz`, which is not registered, with
the message type 7, which is none of 1, 2, 3 and 9. -/
def Example.strayMsg : Message :=
  { action := JSVal.str "status"
    status := some { id := "zz", msgType := JSVal.num 7, value := JSVal.null } }

/-- World `Example.one` after the notification that `m1` is Running. -/
def Example.running : World :=
  (Media.onStatus Example.android "m1" Media.MEDIA_STATE (JSVal.num Media.MEDIA_RUNNING)
    Example.one).2

/-- World `Example.running` after `new Media("b.mp3", fn 5, fn 6, fn 7, fn 8, "m1")`:
object 1 is now the one registered under `m1`. -/
def Example.reattached : World := (Media Example.android Example.argsB Example.running).2

/-- Calls made after that construction: a State notification and a seek for
`m1`, the completion of a seek on object 1, and a Duration notification for
another identifier. -/
def Example.calls : List Op :=
  [Op.onStatus "m1" Media.MEDIA_STATE (JSVal.num Media.MEDIA_STOPPED),
   Op.seekItem "m1" (JSVal.num 1500),
   Op.complete (Callback.seekDone 1) (JSVal.num 1480),
   Op.onStatus "m2" Media.MEDIA_DURATION (JSVal.num 5000)]

/-! # Properties

## Running computations -/

@[simp] theorem JS.pure_run {α : Type} (a : α) (w : World) :
    (pure a : JS α) w = (Except.ok a, w) := rfl

@[simp] theorem JS.ret_run {α : Type} (a : α) (w : World) :
    JS.ret a w = (Except.ok a, w) := rfl

@[simp] theorem JS.throw_run {α : Type} (e : JSError) (w : World) :
    (JS.throw e : JS α) w = (Except.error e, w) := rfl

@[simp] theorem JS.world_run (w : World) : JS.world w = (Except.ok w, w) := rfl

@[simp] theorem JS.emit_run (e : Event) (w : World) :
    JS.emit e w = (Except.ok (), { w with trace := w.trace ++ [e] }) := rfl

@[simp] theorem exec_run (s f : Callback) (service action : String) (args : List JSVal)
    (w : World) :
    exec s f service action args w =
      (Except.ok (), { w with trace := w.trace ++ [Event.exec s f service action args] }) := rfl

@[simp] theorem JS.bind_run {α β : Type} (m : JS α) (f : α → JS β) (w : World) :
    (m >>= f) w = JS.andThen m f w := rfl

theorem JS.deref_some {w : World} {r : Nat} {o : MediaObj} (h : w.heap[r]? = some o) :
    JS.deref r w = (Except.ok o, w) := by
  simp [JS.deref, h]

theorem JS.deref_none {w : World} {r : Nat} (h : w.heap[r]? = none) :
    JS.deref r w = (Except.error JSError.noSuchObject, w) := by
  simp [JS.deref, h]

@[simp] theorem JS.call_fn (k : Nat) (args : List JSVal) (w : World) :
    JS.call (JSVal.fn k) args w =
      (Except.ok (), { w with trace := w.trace ++ [Event.call k args] }) := rfl

@[simp] theorem JSVal.truthy_fn (k : Nat) : (JSVal.fn k).truthy = true := rfl

theorem callable_fn {v : JSVal} (h : v.callable = true) : ∃ k, v = JSVal.fn k := by
  cases v <;> simp [JSVal.callable] at h
  exact ⟨_, rfl⟩

theorem looseEqNum_num (host : Host) (n m : Int) :
    looseEqNum host (JSVal.num n) m = decide (n = m) := by
  by_cases h : n = m <;> simp [looseEqNum, Number, h]

theorem invocation_of_falsy {cb : JSVal} (h : ¬ cb.truthy = true) (args : List JSVal) :
    invocation cb args = [] := by
  cases cb <;> simp_all [JSVal.truthy, invocation]

/-! ## The constructor -/

theorem accepts_s (v : JSVal) : argscheck.accepts 's' v = (v.typeName == "String") := by
  cases v <;> rfl

theorem accepts_S (v : JSVal) :
    argscheck.accepts 'S' v = (v == JSVal.null || v == JSVal.undefined || v.typeName == "String") := by
  cases v <;> rfl

theorem accepts_F (v : JSVal) :
    argscheck.accepts 'F' v = (v == JSVal.null || v == JSVal.undefined || v.callable) := by
  cases v <;> rfl

theorem conforms_media (args : List JSVal) :
    argscheck.conforms "sFFFFS" args =
      (argscheck.accepts 's' (arg args 0) && argscheck.accepts 'F' (arg args 1) &&
        argscheck.accepts 'F' (arg args 2) && argscheck.accepts 'F' (arg args 3) &&
        argscheck.accepts 'F' (arg args 4) && argscheck.accepts 'S' (arg args 5)) := by
  have h : "sFFFFS".toList.enum = [(0, 's'), (1, 'F'), (2, 'F'), (3, 'F'), (4, 'F'), (5, 'S')] := by
    decide
  simp only [argscheck.conforms, h, List.all_cons, List.all_nil, Bool.and_true, Bool.and_assoc]

/-- The argument lists the constructor accepts: `src` is a string, each of
the four callbacks is a function or missing, `mediaId` is a string or
missing. -/
theorem conforms_media_iff (args : List JSVal) :
    argscheck.conforms "sFFFFS" args = true ↔
      (∃ s, arg args 0 = JSVal.str s) ∧
      (∀ i, 1 ≤ i → i ≤ 4 →
        arg args i = JSVal.null ∨ arg args i = JSVal.undefined ∨ ∃ k, arg args i = JSVal.fn k) ∧
      (arg args 5 = JSVal.null ∨ arg args 5 = JSVal.undefined ∨ ∃ e, arg args 5 = JSVal.str e) := by
  have hs : ∀ v, argscheck.accepts 's' v = true ↔ ∃ s, v = JSVal.str s := by
    intro v; cases v <;> simp [accepts_s, JSVal.typeName]
  have hS : ∀ v, argscheck.accepts 'S' v = true ↔
      (v = JSVal.null ∨ v = JSVal.undefined ∨ ∃ e, v = JSVal.str e) := by
    intro v; cases v <;> simp [accepts_S, JSVal.typeName]
  have hF : ∀ v, argscheck.accepts 'F' v = true ↔
      (v = JSVal.null ∨ v = JSVal.undefined ∨ ∃ k, v = JSVal.fn k) := by
    intro v; cases v <;> simp [accepts_F, JSVal.callable]
  rw [conforms_media]
  simp only [Bool.and_eq_true, hs, hS, hF]
  constructor
  · rintro ⟨⟨⟨⟨⟨h0, h1⟩, h2⟩, h3⟩, h4⟩, h5⟩
    refine ⟨h0, ?_, h5⟩
    intro i hi1 hi4
    have : i = 1 ∨ i = 2 ∨ i = 3 ∨ i = 4 := by omega
    rcases this with rfl | rfl | rfl | rfl <;> assumption
  · rintro ⟨h0, hcb, h5⟩
    exact ⟨⟨⟨⟨⟨h0, hcb 1 (by omega) (by omega)⟩, hcb 2 (by omega) (by omega)⟩,
      hcb 3 (by omega) (by omega)⟩, hcb 4 (by omega) (by omega)⟩, h5⟩

theorem Media_reject (host : Host) (args : List JSVal) (w : World)
    (h : argscheck.conforms "sFFFFS" args = false) :
    Media host args w = (Except.error JSError.invalidArgument, w) := by
  simp [Media, argscheck.checkArgs, h, JS.andThen]

theorem Media_reattach (host : Host) (args : List JSVal) (w : World) (e : String) (r : Nat)
    (old : MediaObj) (hc : argscheck.conforms "sFFFFS" args = true)
    (hid : arg args 5 = JSVal.str e) (hne : e ≠ "")
    (hget : lookup w e = some r) (hheap : w.heap[r]? = some old) :
    Media host args w =
      (Except.ok w.heap.length,
        { heap := w.heap ++
            [{ id := e, node := old.node, _status := old._status,
               src := arg args 0,
               successCallback := arg args 1,
               errorCallback := arg args 2,
               statusCallback := arg args 3,
               createCallback := arg args 4,
               _duration := JSVal.num (-1), _position := JSVal.num (-1) }],
          mediaObjects := (e, w.heap.length) :: w.mediaObjects.filter (fun x => x.1 != e),
          uuids := w.uuids,
          trace := w.trace ++
            [Event.exec (Callback.val (arg args 4))
              (Callback.val (arg args 2)) "Media" "create"
              [JSVal.str e, arg args 0]] }) := by
  simp [Media, argscheck.checkArgs, hc, JS.andThen, hid, hne, hget, JS.deref_some hheap,
    JS.alloc, register]

theorem Media_attach (host : Host) (args : List JSVal) (w : World) (e : String)
    (hc : argscheck.conforms "sFFFFS" args = true)
    (hid : arg args 5 = JSVal.str e) (hne : e ≠ "")
    (hget : lookup w e = none) :
    Media host args w =
      (Except.ok w.heap.length,
        { heap := w.heap ++
            [{ id := e, node := JSVal.undefined, _status := JSVal.undefined,
               src := arg args 0,
               successCallback := arg args 1,
               errorCallback := arg args 2,
               statusCallback := arg args 3,
               createCallback := arg args 4,
               _duration := JSVal.num (-1), _position := JSVal.num (-1) }],
          mediaObjects := (e, w.heap.length) :: w.mediaObjects.filter (fun x => x.1 != e),
          uuids := w.uuids,
          trace := w.trace ++
            [Event.exec (Callback.val (arg args 4))
              (Callback.val (arg args 2)) "Media" "create"
              [JSVal.str e, arg args 0]] }) := by
  simp [Media, argscheck.checkArgs, hc, JS.andThen, hid, hne, hget,
    JS.alloc, register]

theorem Media_generate (host : Host) (args : List JSVal) (w : World)
    (hc : argscheck.conforms "sFFFFS" args = true)
    (hid : (arg args 5).truthy = false) :
    Media host args w =
      (Except.ok w.heap.length,
        { heap := w.heap ++
            [{ id := host.createUUID w.uuids, node := JSVal.undefined, _status := JSVal.undefined,
               src := arg args 0,
               successCallback := arg args 1,
               errorCallback := arg args 2,
               statusCallback := arg args 3,
               createCallback := arg args 4,
               _duration := JSVal.num (-1), _position := JSVal.num (-1) }],
          mediaObjects := (host.createUUID w.uuids, w.heap.length) ::
            w.mediaObjects.filter (fun x => x.1 != host.createUUID w.uuids),
          uuids := w.uuids + 1,
          trace := w.trace ++
            [Event.exec (Callback.val (arg args 4))
              (Callback.val (arg args 2)) "Media" "create"
              [JSVal.str (host.createUUID w.uuids), arg args 0]] }) := by
  cases hm : arg args 5 <;>
    simp_all [Media, argscheck.checkArgs, JS.andThen, JSVal.truthy, utils.createUUID,
      JS.alloc, register]

/-! ## Notifications return -/

theorem onStatus_unknown (host : Host) (w : World) (id : String) (msgType value : JSVal)
    (h : lookup w id = none) :
    Media.onStatus host id msgType value w =
      (Except.ok (), { w with trace := w.trace ++
        (if host.consoleError = true then
          [Event.consoleError "Received Media.onStatus callback for unknown media :: "
            (JSVal.str id)]
         else []) }) := by
  by_cases hc : host.consoleError = true <;>
    simp [Media.onStatus, JS.andThen, h, hc]

theorem guarded_call_returns (cb : JSVal) (args : List JSVal) (w : World)
    (h : (!cb.truthy || cb.callable) = true) :
    ∃ w1, (if cb.truthy = true then JS.call cb args else pure PUnit.unit) w = (Except.ok (), w1) ∧
      w1.heap = w.heap ∧ w1.mediaObjects = w.mediaObjects := by
  cases cb <;> simp_all [JSVal.truthy, JSVal.callable, JS.call]

theorem onStatus_returns (host : Host) (w : World) (id : String) (msgType value : JSVal)
    (hreg : ∀ r, lookup w id = some r → ∃ o, w.heap[r]? = some o ∧ o.callbacksOK = true) :
    ∃ w1, Media.onStatus host id msgType value w = (Except.ok (), w1) := by
  cases hget : lookup w id with
  | none => exact ⟨_, onStatus_unknown host w id msgType value hget⟩
  | some r =>
    obtain ⟨o, hheap, hcb⟩ := hreg r hget
    simp only [MediaObj.callbacksOK, Bool.and_eq_true] at hcb
    obtain ⟨⟨hst, hsu⟩, her⟩ := hcb
    simp only [Media.onStatus, JS.bind_run, JS.andThen, JS.world_run, hget, JS.deref_some hheap]
    by_cases h1 : msgType.strictEq Media.MEDIA_STATE = true
    · simp only [h1, if_true]
      by_cases ht : o.statusCallback.truthy = true
      · have hc : o.statusCallback.callable = true := by simpa [ht] using hst
        obtain ⟨j, hj⟩ := callable_fn hc
        by_cases hl : looseEqNum host value Media.MEDIA_STOPPED = true
        · obtain ⟨w2, h2, -, -⟩ := guarded_call_returns o.successCallback [] 
            { w with trace := w.trace ++ [Event.call j [value]] } hsu
          refine ⟨w2, ?_⟩
          simp [hj, hl, JS.andThen, JS.deref, hheap, ← h2]
        · simp [hj, hl, JS.andThen, JS.deref, hheap]
      · by_cases hl : looseEqNum host value Media.MEDIA_STOPPED = true
        · obtain ⟨w2, h2, -, -⟩ := guarded_call_returns o.successCallback [] w hsu
          refine ⟨w2, ?_⟩
          simp [ht, hl, JS.andThen, JS.deref, hheap, ← h2]
        · simp [ht, hl, JS.andThen, JS.deref, hheap]
    · by_cases h2 : msgType.strictEq Media.MEDIA_DURATION = true
      · simp [h1, h2, JS.setDuration, hheap, JS.andThen, JS.deref]
      · by_cases h3 : msgType.strictEq Media.MEDIA_ERROR = true
        · obtain ⟨w2, hw2, -, -⟩ := guarded_call_returns o.errorCallback [value] w her
          exact ⟨w2, by simp [h1, h2, h3, ← hw2, JS.andThen, JS.deref, hheap]⟩
        · by_cases h4 : msgType.strictEq Media.MEDIA_POSITION = true
          · simp [h1, h2, h3, h4, JS.setPosition, hheap, JS.andThen, JS.deref]
          · by_cases hc : host.consoleError = true <;> simp [h1, h2, h3, h4, hc, JS.andThen, JS.deref, hheap]

/-! ## Consistency of the registry -/

theorem lookup_mem {l : List (String × Nat)} {id : String} {r : Nat}
    (h : l.lookup id = some r) : (id, r) ∈ l := by
  induction l with
  | nil => simp at h
  | cons x xs ih =>
    obtain ⟨k, v⟩ := x
    by_cases hk : id = k
    · subst hk
      simp at h
      simp [h]
    · have hb : (id == k) = false := by simpa using hk
      rw [List.lookup_cons, hb] at h
      exact List.mem_cons_of_mem _ (ih h)

theorem regOK_iff (w : World) :
    w.regOK = true ↔ ∀ e ∈ w.mediaObjects, ∃ o, w.heap[e.2]? = some o ∧ o.id = e.1 := by
  simp only [World.regOK, List.all_eq_true]
  constructor
  · intro h e he
    have := h e he
    cases hh : w.heap[e.2]? with
    | none => simp [hh] at this
    | some o => exact ⟨o, rfl, by simpa [hh] using this⟩
  · intro h e he
    obtain ⟨o, ho, hid⟩ := h e he
    simp [ho, hid]

theorem regOK_lookup {w : World} {id : String} {r : Nat} (hok : w.regOK = true)
    (h : lookup w id = some r) : ∃ o, w.heap[r]? = some o ∧ o.id = id :=
  (regOK_iff w).1 hok (id, r) (lookup_mem h)

theorem Media_get_run (w : World) (id : String) :
    Media.get id w =
      (Except.ok (match lookup w id with
        | some r => JSVal.media r
        | none => JSVal.undefined), w) := by
  cases h : lookup w id <;> simp [Media.get, JS.andThen, h]

/-- What a construction with a well-formed argument list does, in all three cases. -/
theorem Media_constructs (host : Host) (args : List JSVal) (w : World)
    (hc : argscheck.conforms "sFFFFS" args = true) (hok : w.regOK = true) :
    ∃ id node status,
      Media host args w =
        (Except.ok w.heap.length,
          { heap := w.heap ++
              [{ id := id, node := node, _status := status,
                 src := arg args 0, successCallback := arg args 1,
                 errorCallback := arg args 2, statusCallback := arg args 3,
                 createCallback := arg args 4,
                 _duration := JSVal.num (-1), _position := JSVal.num (-1) }],
            mediaObjects := (id, w.heap.length) :: w.mediaObjects.filter (fun x => x.1 != id),
            uuids := w.uuids + (if (arg args 5).truthy = true then 0 else 1),
            trace := w.trace ++
              [Event.exec (Callback.val (arg args 4)) (Callback.val (arg args 2)) "Media" "create"
                [JSVal.str id, arg args 0]] }) ∧
      (∀ e, arg args 5 = JSVal.str e → e ≠ "" → id = e) ∧
      ((arg args 5).truthy = false → id = host.createUUID w.uuids) := by
  by_cases ht : (arg args 5).truthy = true
  · have h5 : argscheck.accepts 'S' (arg args 5) = true := by
      rw [conforms_media] at hc
      simp only [Bool.and_eq_true] at hc
      exact hc.2
    obtain ⟨e, he, hne⟩ : ∃ e, arg args 5 = JSVal.str e ∧ e ≠ "" := by
      cases h : arg args 5 <;> rw [h] at h5 ht <;> first
        | exact ⟨_, rfl, by simpa [JSVal.truthy] using ht⟩
        | (simp [accepts_S, JSVal.typeName, JSVal.truthy] at h5 ht)
    cases hget : lookup w e with
    | none =>
      refine ⟨e, JSVal.undefined, JSVal.undefined, ?_, ?_, ?_⟩
      · rw [Media_attach host args w e hc he hne hget]; simp [ht]
      · intro e1 h1 _; rw [he] at h1; cases h1; rfl
      · intro hf; rw [hf] at ht; cases ht
    | some r =>
      obtain ⟨old, hold, -⟩ := regOK_lookup hok hget
      refine ⟨e, old.node, old._status, ?_, ?_, ?_⟩
      · rw [Media_reattach host args w e r old hc he hne hget hold]; simp [ht]
      · intro e1 h1 _; rw [he] at h1; cases h1; rfl
      · intro hf; rw [hf] at ht; cases ht
  · have hf : (arg args 5).truthy = false := by simpa using ht
    refine ⟨host.createUUID w.uuids, JSVal.undefined, JSVal.undefined, ?_, ?_, ?_⟩
    · rw [Media_generate host args w hc hf]; simp [hf]
    · intro e he hne; rw [he] at hf; simp [JSVal.truthy, hne] at hf
    · intro _; rfl

/-! ## What calls keep -/

theorem keeps_refl (r : Nat) (w : World) : World.Keeps r w w := ⟨rfl, rfl, rfl⟩

theorem keeps_trans {r : Nat} {w w1 w2 : World} (h1 : World.Keeps r w w1)
    (h2 : World.Keeps r w1 w2) : World.Keeps r w w2 :=
  ⟨h2.1.trans h1.1, h2.2.1.trans h1.2.1, h2.2.2.trans h1.2.2⟩

theorem keeps_of_trace (r : Nat) (w : World) (t : List Event) :
    World.Keeps r w { w with trace := t } := ⟨rfl, rfl, rfl⟩

theorem heap_id_of_map {h1 h2 : List MediaObj} (hm : h1.map MediaObj.id = h2.map MediaObj.id)
    (i : Nat) : (h1[i]?).map MediaObj.id = (h2[i]?).map MediaObj.id := by
  have := congrArg (fun l => l[i]?) hm
  simpa [List.getElem?_map] using this

theorem keeps_regOK {r : Nat} {w w1 : World} (h : World.Keeps r w w1)
    (hok : w.regOK = true) : w1.regOK = true := by
  rw [regOK_iff] at hok ⊢
  intro e he
  rw [h.1] at he
  obtain ⟨o, ho, hid⟩ := hok e he
  have hm := heap_id_of_map h.2.1 e.2
  rw [ho] at hm
  cases h1 : w1.heap[e.2]? with
  | none => simp [h1] at hm
  | some o1 =>
    refine ⟨o1, rfl, ?_⟩
    simp [h1] at hm
    rw [hm, hid]

theorem keeps_holds {id : String} {r : Nat} {d : JSVal} {w w1 : World}
    (h : World.Keeps r w w1) (hw : World.Holds id r d w) : World.Holds id r d w1 := by
  obtain ⟨hok, o, ho, hid, hd⟩ := hw
  refine ⟨keeps_regOK h hok, ?_⟩
  have hm := heap_id_of_map h.2.1 r
  have hdur := h.2.2
  rw [ho] at hm hdur
  cases h1 : w1.heap[r]? with
  | none => simp [h1] at hm
  | some o1 =>
    simp [h1] at hm hdur
    exact ⟨o1, rfl, by rw [hm, hid], by rw [hdur, hd]⟩

/-! ### Harmless computations -/

theorem harmless_pure {α : Type} (r : Nat) (a : α) : JS.Harmless r (pure a : JS α) :=
  fun w => keeps_refl r w

theorem harmless_throw {α : Type} (r : Nat) (e : JSError) :
    JS.Harmless r (JS.throw e : JS α) :=
  fun w => keeps_refl r w

theorem harmless_world (r : Nat) : JS.Harmless r JS.world :=
  fun w => keeps_refl r w

theorem harmless_emit (r : Nat) (e : Event) : JS.Harmless r (JS.emit e) :=
  fun w => keeps_of_trace r w _

theorem harmless_exec (r : Nat) (s f : Callback) (service action : String)
    (args : List JSVal) : JS.Harmless r (exec s f service action args) :=
  fun w => keeps_of_trace r w _

theorem harmless_deref (r me : Nat) : JS.Harmless r (JS.deref me) := by
  intro w
  unfold JS.deref
  split <;> exact keeps_refl r w

theorem harmless_call (r : Nat) (f : JSVal) (args : List JSVal) :
    JS.Harmless r (JS.call f args) := by
  cases f <;> first | exact harmless_emit r _ | exact harmless_throw r _

theorem harmless_bind {α β : Type} {r : Nat} {m : JS α} {f : α → JS β}
    (hm : JS.Harmless r m) (hf : ∀ a, JS.Harmless r (f a)) : JS.Harmless r (m >>= f) := by
  intro w
  have h1 := hm w
  simp only [JS.bind_run, JS.andThen]
  cases hmw : m w with
  | mk res w1 =>
    rw [hmw] at h1
    cases res with
    | ok a => exact keeps_trans h1 (hf a w1)
    | error e => exact h1

theorem harmless_ite {α : Type} {r : Nat} {c : Prop} [Decidable c] {m1 m2 : JS α}
    (h1 : JS.Harmless r m1) (h2 : JS.Harmless r m2) : JS.Harmless r (if c then m1 else m2) := by
  split <;> assumption

theorem harmless_setPosition (r me : Nat) (v : JSVal) : JS.Harmless r (JS.setPosition me v) := by
  intro w
  unfold JS.setPosition
  cases h : w.heap[me]? with
  | none => exact keeps_refl r w
  | some o =>
    have hlt : me < w.heap.length := by
      by_contra hge
      rw [List.getElem?_eq_none (by omega)] at h
      cases h
    refine ⟨rfl, ?_, ?_⟩
    · apply List.ext_getElem?
      intro i
      by_cases hi : i = me
      · subst hi
        have hget : w.heap[i] = o := by
          rw [List.getElem?_eq_getElem hlt] at h
          exact Option.some.inj h
        simp [List.getElem?_map, hlt, hget]
      · simp [List.getElem?_map, List.getElem?_set, Ne.symm hi]
    · by_cases hi : r = me
      · subst hi; simp [h, hlt]
      · simp [List.getElem?_set, Ne.symm hi]

theorem methods_harmless (host : Host) (r me : Nat) (a b : JSVal) :
    JS.Harmless r (Media.prototype.play me a) ∧
    JS.Harmless r (Media.prototype.stop me) ∧
    JS.Harmless r (Media.prototype.seekTo me a) ∧
    JS.Harmless r (Media.prototype.pause me) ∧
    JS.Harmless r (Media.prototype.getDuration me) ∧
    JS.Harmless r (Media.prototype.getCurrentPosition me a b) ∧
    JS.Harmless r (Media.prototype.startRecord me) ∧
    JS.Harmless r (Media.prototype.stopRecord me) ∧
    JS.Harmless r (Media.prototype.pauseRecord me) ∧
    JS.Harmless r (Media.prototype.resumeRecord me) ∧
    JS.Harmless r (Media.prototype.release me) ∧
    JS.Harmless r (Media.prototype.setVolume me a) ∧
    JS.Harmless r (Media.prototype.setRate host me a) ∧
    JS.Harmless r (Media.prototype.getCurrentAmplitude me a b) := by
  refine ⟨?_, ?_, ?_, ?_, ?_, ?_, ?_, ?_, ?_, ?_, ?_, ?_, ?_, ?_⟩ <;>
    simp only [Media.prototype.play, Media.prototype.stop, Media.prototype.seekTo,
      Media.prototype.pause, Media.prototype.getDuration, Media.prototype.getCurrentPosition,
      Media.prototype.startRecord, Media.prototype.stopRecord, Media.prototype.pauseRecord,
      Media.prototype.resumeRecord, Media.prototype.release, Media.prototype.setVolume,
      Media.prototype.setRate, Media.prototype.getCurrentAmplitude] <;>
    repeat' first
      | exact harmless_pure _ _
      | exact harmless_emit _ _
      | exact harmless_exec _ _ _ _ _ _
      | exact harmless_deref _ _
      | apply harmless_bind
      | apply harmless_ite
      | intro _

theorem dispatch_harmless {r : Nat} (id : String) (f : Nat → JS Unit)
    (hf : ∀ media, JS.Harmless r (f media)) :
    JS.Harmless r (do
      let w ← JS.world
      match lookup w id with
      | some media => f media
      | none => pure ()) := by
  apply harmless_bind (harmless_world r)
  intro w
  split
  · exact hf _
  · exact harmless_pure _ _

theorem get_harmless (r : Nat) (id : String) : JS.Harmless r (Media.get id) := by
  apply harmless_bind (harmless_world r)
  intro w
  split <;> exact harmless_pure _ _

theorem statics_harmless (r : Nat) (id : String) (a b : JSVal) :
    JS.Harmless r (Media.getAsync id a) ∧
    JS.Harmless r Media.getAll ∧
    JS.Harmless r (Media.playItem id) ∧
    JS.Harmless r (Media.stopItem id) ∧
    JS.Harmless r (Media.seekItem id a) ∧
    JS.Harmless r (Media.pauseItem id) ∧
    JS.Harmless r (Media.getDurationOfItem id a) ∧
    JS.Harmless r (Media.getItemCurrentPosition id a b) ∧
    JS.Harmless r (Media.releaseItem id) ∧
    JS.Harmless r (Media.setItemVolume id a) ∧
    JS.Harmless r (Media.getItemAmplitude id a b) := by
  have hm := fun me x y => methods_harmless Example.android r me x y
  refine ⟨?_, ?_, ?_, ?_, ?_, ?_, ?_, ?_, ?_, ?_, ?_⟩
  · exact harmless_ite
      (harmless_bind (get_harmless r id) (fun _ => harmless_call _ _ _))
      (harmless_pure _ _)
  · exact harmless_bind (harmless_world r) (fun _ => harmless_pure _ _)
  · exact dispatch_harmless id _ (fun me => (hm me JSVal.undefined b).1)
  · exact dispatch_harmless id _ (fun me => (hm me a b).2.1)
  · exact dispatch_harmless id _ (fun me => (hm me a b).2.2.1)
  · exact dispatch_harmless id _ (fun me => (hm me a b).2.2.2.1)
  · exact dispatch_harmless id _ (fun me => harmless_ite
      (harmless_bind (hm me a b).2.2.2.2.1 (fun _ => harmless_call _ _ _))
      (harmless_pure _ _))
  · exact dispatch_harmless id _ (fun me => (hm me a b).2.2.2.2.2.1)
  · exact dispatch_harmless id _ (fun me => (hm me a b).2.2.2.2.2.2.2.2.2.2.1)
  · exact dispatch_harmless id _ (fun me => (hm me a b).2.2.2.2.2.2.2.2.2.2.2.1)
  · exact dispatch_harmless id _ (fun me => (hm me a b).2.2.2.2.2.2.2.2.2.2.2.2.2)

theorem completion_harmless (r : Nat) (c : Callback) (p : JSVal) :
    JS.Harmless r (c.run p) := by
  cases c <;> simp only [Callback.run] <;>
    repeat' first
      | exact harmless_pure _ _
      | exact harmless_call _ _ _
      | exact harmless_setPosition _ _ _
      | apply harmless_bind
      | apply harmless_ite
      | intro _

theorem harmless_ite_neg {α : Type} {r : Nat} {c : Prop} [Decidable c] {m1 m2 : JS α}
    (hc : ¬ c) (h2 : JS.Harmless r m2) : JS.Harmless r (if c then m1 else m2) := by
  rw [if_neg hc]; exact h2

theorem setDuration_keeps {r me : Nat} (hne : me ≠ r) (v : JSVal) (w : World) :
    World.Keeps r w (JS.setDuration me v w).2 := by
  unfold JS.setDuration
  cases h : w.heap[me]? with
  | none => exact keeps_refl r w
  | some o =>
    have hlt : me < w.heap.length := by
      by_contra hge
      rw [List.getElem?_eq_none (by omega)] at h
      cases h
    refine ⟨rfl, ?_, ?_⟩
    · apply List.ext_getElem?
      intro i
      by_cases hi : i = me
      · subst hi
        have hget : w.heap[i] = o := by
          rw [List.getElem?_eq_getElem hlt] at h
          exact Option.some.inj h
        simp [List.getElem?_map, hlt, hget]
      · simp [List.getElem?_map, List.getElem?_set, Ne.symm hi]
    · simp [List.getElem?_set, hne]

theorem onStatus_harmless (host : Host) (r : Nat) (id : String) (msgType value : JSVal)
    (hnd : ¬ msgType.strictEq Media.MEDIA_DURATION = true) :
    JS.Harmless r (Media.onStatus host id msgType value) := by
  apply harmless_bind (harmless_world r)
  intro w
  split
  · apply harmless_ite
    · apply harmless_bind (harmless_deref _ _)
      intro m
      repeat' first
        | exact harmless_pure _ _
        | exact harmless_call _ _ _
        | exact harmless_deref _ _
        | apply harmless_bind
        | apply harmless_ite
        | intro _
    · apply harmless_ite_neg hnd
      repeat' first
        | exact harmless_pure _ _
        | exact harmless_call _ _ _
        | exact harmless_emit _ _
        | exact harmless_deref _ _
        | exact harmless_setPosition _ _ _
        | apply harmless_bind
        | apply harmless_ite
        | intro _
  · exact harmless_ite (harmless_emit _ _) (harmless_pure _ _)

theorem strictEq_duration {v : JSVal} (h : v.strictEq Media.MEDIA_DURATION = true) :
    v = JSVal.num 2 := by
  cases v <;> simp [JSVal.strictEq, Media.MEDIA_DURATION] at h ⊢
  exact h

/-- A notification keeps the object at `r` unless it is a Duration
notification for an identifier registered for `r`. -/
theorem onStatus_keeps (host : Host) (idn : String) (r : Nat) (msgType value : JSVal)
    (w : World)
    (hsafe : msgType.strictEq Media.MEDIA_DURATION = true → lookup w idn ≠ some r) :
    World.Keeps r w (Media.onStatus host idn msgType value w).2 := by
  by_cases hd : msgType.strictEq Media.MEDIA_DURATION = true
  · have hm := strictEq_duration hd
    subst hm
    cases hget : lookup w idn with
    | none =>
      rw [onStatus_unknown host w idn _ value hget]
      exact keeps_of_trace r w _
    | some media =>
      have hne : media ≠ r := by
        intro h
        subst h
        exact hsafe hd hget
      have : Media.onStatus host idn (JSVal.num 2) value w = JS.setDuration media value w := by
        simp [Media.onStatus, JS.andThen, hget, JSVal.strictEq, Media.MEDIA_STATE,
          Media.MEDIA_DURATION]
      rw [this]
      exact setDuration_keeps hne value w
  · exact onStatus_harmless host r idn msgType value hd w

theorem onMessageFromNative_keeps (host : Host) (r : Nat) (msg : Message) (w : World)
    (hsafe : ∀ id, (Op.onMessageFromNative msg).notifiesDuration id = true →
      lookup w id ≠ some r) :
    World.Keeps r w (onMessageFromNative host msg w).2 := by
  unfold onMessageFromNative
  by_cases ha : looseEqText msg.action "status" = true
  · rw [if_pos ha]
    cases hs : msg.status with
    | none => exact keeps_refl r w
    | some s =>
      apply onStatus_keeps
      intro hd
      apply hsafe s.id
      simp [Op.notifiesDuration, ha, hs, hd]
  · rw [if_neg ha]
    exact keeps_refl r w

theorem getElem?_append_some {l : List MediaObj} {i : Nat} {o : MediaObj} (x : MediaObj)
    (h : l[i]? = some o) : (l ++ [x])[i]? = some o := by
  have hlt : i < l.length := by
    by_contra hge
    rw [List.getElem?_eq_none (by omega)] at h
    cases h
  rw [List.getElem?_append_left hlt]
  exact h

theorem Media_regOK (host : Host) (args : List JSVal) (w : World) (hok : w.regOK = true) :
    (Media host args w).2.regOK = true := by
  by_cases hc : argscheck.conforms "sFFFFS" args = true
  · obtain ⟨idn, node, status, hrun, -, -⟩ := Media_constructs host args w hc hok
    rw [hrun]
    rw [regOK_iff] at hok ⊢
    intro e he
    simp only [List.mem_cons, List.mem_filter] at he
    rcases he with rfl | ⟨he, -⟩
    · exact ⟨_, List.getElem?_concat_length _ _, rfl⟩
    · obtain ⟨o1, ho1, hid1⟩ := hok e he
      exact ⟨o1, getElem?_append_some _ ho1, hid1⟩
  · have hf : argscheck.conforms "sFFFFS" args = false := by simpa using hc
    rw [Media_reject host args w hf]
    exact hok

theorem Media_holds (host : Host) (args : List JSVal) (id : String) (r : Nat) (d : JSVal)
    (w : World) (hw : World.Holds id r d w) :
    World.Holds id r d (Media host args w).2 := by
  refine ⟨Media_regOK host args w hw.1, ?_⟩
  obtain ⟨hok, o, ho, hoid, hod⟩ := hw
  by_cases hc : argscheck.conforms "sFFFFS" args = true
  · obtain ⟨idn, node, status, hrun, -, -⟩ := Media_constructs host args w hc hok
    rw [hrun]
    exact ⟨o, getElem?_append_some _ ho, hoid, hod⟩
  · have hf : argscheck.conforms "sFFFFS" args = false := by simpa using hc
    rw [Media_reject host args w hf]
    exact ⟨o, ho, hoid, hod⟩

theorem createItem_keeps (host : Host) (args : List JSVal) (cb : JSVal) (r : Nat) (w : World) :
    World.Keeps r (Media host (args.take 6) w).2 (Media.createItem host args cb w).2 := by
  unfold Media.createItem
  simp only [JS.bind_run, JS.andThen]
  cases hm : Media host (List.take 6 args) w with
  | mk res w1 =>
    cases res with
    | error e => exact keeps_refl r w1
    | ok n =>
      have hh : JS.Harmless r (if cb.truthy = true then do
          let o ← JS.deref n
          JS.call cb [JSVal.str o.id] else pure PUnit.unit) :=
        harmless_ite (harmless_bind (harmless_deref _ _) (fun _ => harmless_call _ _ _))
          (harmless_pure _ _)
      exact hh w1

/-- What one call does to the registry, the identifiers and the cached
duration of the object at `r`: possibly one construction, followed by
something that keeps them, provided the call is not a Duration notification
for an identifier registered for `r`. -/
theorem step_keeps (host : Host) (op : Op) (r : Nat) (w : World)
    (hsafe : ∀ id, op.notifiesDuration id = true → lookup w id ≠ some r) :
    ∃ w1, (w1 = w ∨ ∃ args, w1 = (Media host args w).2) ∧ World.Keeps r w1 (op.run host w) := by
  cases op with
  | construct args => exact ⟨_, Or.inr ⟨args, rfl⟩, keeps_refl r _⟩
  | createItem args cb => exact ⟨_, Or.inr ⟨_, rfl⟩, createItem_keeps host args cb r w⟩
  | get i => exact ⟨w, Or.inl rfl, get_harmless r i w⟩
  | getAsync i cb => exact ⟨w, Or.inl rfl, (statics_harmless r i cb cb).1 w⟩
  | getAll => exact ⟨w, Or.inl rfl, (statics_harmless r "" JSVal.null JSVal.null).2.1 w⟩
  | play me a => exact ⟨w, Or.inl rfl, (methods_harmless host r me a a).1 w⟩
  | stop me => exact ⟨w, Or.inl rfl, (methods_harmless host r me JSVal.null JSVal.null).2.1 w⟩
  | seekTo me a => exact ⟨w, Or.inl rfl, (methods_harmless host r me a a).2.2.1 w⟩
  | pause me =>
    exact ⟨w, Or.inl rfl, (methods_harmless host r me JSVal.null JSVal.null).2.2.2.1 w⟩
  | getDuration me =>
    exact ⟨w, Or.inl rfl, (methods_harmless host r me JSVal.null JSVal.null).2.2.2.2.1 w⟩
  | getCurrentPosition me a b =>
    exact ⟨w, Or.inl rfl, (methods_harmless host r me a b).2.2.2.2.2.1 w⟩
  | startRecord me =>
    exact ⟨w, Or.inl rfl, (methods_harmless host r me JSVal.null JSVal.null).2.2.2.2.2.2.1 w⟩
  | stopRecord me =>
    exact ⟨w, Or.inl rfl, (methods_harmless host r me JSVal.null JSVal.null).2.2.2.2.2.2.2.1 w⟩
  | pauseRecord me =>
    exact ⟨w, Or.inl rfl,
      (methods_harmless host r me JSVal.null JSVal.null).2.2.2.2.2.2.2.2.1 w⟩
  | resumeRecord me =>
    exact ⟨w, Or.inl rfl,
      (methods_harmless host r me JSVal.null JSVal.null).2.2.2.2.2.2.2.2.2.1 w⟩
  | release me =>
    exact ⟨w, Or.inl rfl,
      (methods_harmless host r me JSVal.null JSVal.null).2.2.2.2.2.2.2.2.2.2.1 w⟩
  | setVolume me a =>
    exact ⟨w, Or.inl rfl, (methods_harmless host r me a a).2.2.2.2.2.2.2.2.2.2.2.1 w⟩
  | setRate me a =>
    exact ⟨w, Or.inl rfl, (methods_harmless host r me a a).2.2.2.2.2.2.2.2.2.2.2.2.1 w⟩
  | getCurrentAmplitude me a b =>
    exact ⟨w, Or.inl rfl, (methods_harmless host r me a b).2.2.2.2.2.2.2.2.2.2.2.2.2 w⟩
  | playItem i => exact ⟨w, Or.inl rfl, (statics_harmless r i JSVal.null JSVal.null).2.2.1 w⟩
  | stopItem i => exact ⟨w, Or.inl rfl, (statics_harmless r i JSVal.null JSVal.null).2.2.2.1 w⟩
  | seekItem i a => exact ⟨w, Or.inl rfl, (statics_harmless r i a a).2.2.2.2.1 w⟩
  | pauseItem i =>
    exact ⟨w, Or.inl rfl, (statics_harmless r i JSVal.null JSVal.null).2.2.2.2.2.1 w⟩
  | getDurationOfItem i a => exact ⟨w, Or.inl rfl, (statics_harmless r i a a).2.2.2.2.2.2.1 w⟩
  | getItemCurrentPosition i a b =>
    exact ⟨w, Or.inl rfl, (statics_harmless r i a b).2.2.2.2.2.2.2.1 w⟩
  | releaseItem i =>
    exact ⟨w, Or.inl rfl, (statics_harmless r i JSVal.null JSVal.null).2.2.2.2.2.2.2.2.1 w⟩
  | setItemVolume i a =>
    exact ⟨w, Or.inl rfl, (statics_harmless r i a a).2.2.2.2.2.2.2.2.2.1 w⟩
  | getItemAmplitude i a b =>
    exact ⟨w, Or.inl rfl, (statics_harmless r i a b).2.2.2.2.2.2.2.2.2.2 w⟩
  | onStatus i msgType value =>
    refine ⟨w, Or.inl rfl, onStatus_keeps host i r msgType value w ?_⟩
    intro hd
    exact hsafe i (by simp [Op.notifiesDuration, hd])
  | onMessageFromNative msg =>
    exact ⟨w, Or.inl rfl, onMessageFromNative_keeps host r msg w hsafe⟩
  | complete c p => exact ⟨w, Or.inl rfl, completion_harmless r c p w⟩

/-- Every call into the module keeps the registry consistent. -/
theorem step_regOK (host : Host) (op : Op) (w : World) (hok : w.regOK = true) :
    (op.run host w).regOK = true := by
  obtain ⟨w1, hw1, hk⟩ := step_keeps host op w.heap.length w (by
    intro id _ hl
    obtain ⟨o, ho, -⟩ := regOK_lookup hok hl
    rw [List.getElem?_eq_none (Nat.le_refl _)] at ho
    cases ho)
  apply keeps_regOK hk
  rcases hw1 with rfl | ⟨args, rfl⟩
  · exact hok
  · exact Media_regOK host args w hok

/-- A sequence of calls keeps the registry consistent. -/
theorem runAll_regOK (host : Host) (ops : List Op) (w : World) (hok : w.regOK = true) :
    (runAll host ops w).regOK = true := by
  induction ops generalizing w with
  | nil => exact hok
  | cons op rest ih =>
    simp only [runAll, List.foldl_cons]
    exact ih (op.run host w) (step_regOK host op w hok)

/-- The registry is consistent after any sequence of calls made on a freshly
loaded module. -/
theorem reachable_regOK (host : Host) (ops : List Op) :
    (runAll host ops World.initial).regOK = true :=
  runAll_regOK host ops World.initial rfl

theorem step_holds (host : Host) (op : Op) (id : String) (r : Nat) (d : JSVal) (w : World)
    (hw : World.Holds id r d w) (hn : op.notifiesDuration id = false) :
    World.Holds id r d (op.run host w) := by
  obtain ⟨w1, hw1, hk⟩ := step_keeps host op r w (by
    intro idn hidn hl
    obtain ⟨hok, o, ho, hoid, -⟩ := hw
    obtain ⟨o1, ho1, hid1⟩ := regOK_lookup hok hl
    rw [ho] at ho1
    cases ho1
    rw [hoid] at hid1
    subst hid1
    rw [hn] at hidn
    cases hidn)
  apply keeps_holds hk
  rcases hw1 with rfl | ⟨args, rfl⟩
  · exact hw
  · exact Media_holds host args id r d w hw

theorem runAll_holds (host : Host) (ops : List Op) (id : String) (r : Nat) (d : JSVal)
    (w : World) (hw : World.Holds id r d w)
    (hn : ∀ op ∈ ops, op.notifiesDuration id = false) :
    World.Holds id r d (runAll host ops w) := by
  induction ops generalizing w with
  | nil => exact hw
  | cons op rest ih =>
    simp only [runAll, List.foldl_cons]
    exact ih (op.run host w) (step_holds host op id r d w hw (hn op (List.mem_cons_self _ _)))
      (fun x hx => hn x (List.mem_cons_of_mem _ hx))

theorem lookup_registered (w : World) (id : String) (r : Nat) (h : List MediaObj) (u : Nat)
    (t : List Event) :
    lookup { heap := h, mediaObjects := (id, r) :: w.mediaObjects.filter (fun x => x.1 != id),
             uuids := u, trace := t } id = some r := by
  simp [lookup]

/-! ### Quiet computations -/

theorem quiet_pure {α : Type} (a : α) : JS.Quiet (pure a : JS α) :=
  fun _ => ⟨rfl, rfl⟩

theorem quiet_throw {α : Type} (e : JSError) : JS.Quiet (JS.throw e : JS α) :=
  fun _ => ⟨rfl, rfl⟩

theorem quiet_world : JS.Quiet JS.world :=
  fun _ => ⟨rfl, rfl⟩

theorem quiet_emit (e : Event) : JS.Quiet (JS.emit e) :=
  fun _ => ⟨rfl, rfl⟩

theorem quiet_deref (me : Nat) : JS.Quiet (JS.deref me) := by
  intro w
  unfold JS.deref
  split <;> exact ⟨rfl, rfl⟩

theorem quiet_call (f : JSVal) (args : List JSVal) : JS.Quiet (JS.call f args) := by
  cases f <;> first | exact quiet_emit _ | exact quiet_throw _

theorem quiet_bind {α β : Type} {m : JS α} {f : α → JS β}
    (hm : JS.Quiet m) (hf : ∀ a, JS.Quiet (f a)) : JS.Quiet (m >>= f) := by
  intro w
  have h1 := hm w
  simp only [JS.bind_run, JS.andThen]
  cases hmw : m w with
  | mk res w1 =>
    rw [hmw] at h1
    cases res with
    | ok a => exact ⟨(hf a w1).1.trans h1.1, (hf a w1).2.trans h1.2⟩
    | error e => exact h1

theorem quiet_ite {α : Type} {c : Prop} [Decidable c] {m1 m2 : JS α}
    (h1 : JS.Quiet m1) (h2 : JS.Quiet m2) : JS.Quiet (if c then m1 else m2) := by
  split <;> assumption

theorem quiet_ite_neg {α : Type} {c : Prop} [Decidable c] {m1 m2 : JS α}
    (hc : ¬ c) (h2 : JS.Quiet m2) : JS.Quiet (if c then m1 else m2) := by
  rw [if_neg hc]; exact h2

/-- A notification that is neither a Duration nor a Position notification
changes no object and no registry entry. -/
theorem onStatus_quiet (host : Host) (id : String) (msgType value : JSVal)
    (hnd : ¬ msgType.strictEq Media.MEDIA_DURATION = true)
    (hnp : ¬ msgType.strictEq Media.MEDIA_POSITION = true) :
    JS.Quiet (Media.onStatus host id msgType value) := by
  apply quiet_bind quiet_world
  intro w
  split
  · apply quiet_ite
    · apply quiet_bind (quiet_deref _)
      intro m
      repeat' first
        | exact quiet_pure _
        | exact quiet_call _ _
        | exact quiet_deref _
        | apply quiet_bind
        | apply quiet_ite
        | intro _
    · apply quiet_ite_neg hnd
      apply quiet_ite
      · exact quiet_bind (quiet_deref _)
          (fun _ => quiet_ite (quiet_call _ _) (quiet_pure _))
      · apply quiet_ite_neg hnp
        exact quiet_ite (quiet_emit _) (quiet_pure _)
  · exact quiet_ite (quiet_emit _) (quiet_pure _)

/-! # The claims -/

/-- C2 (as stated, refuted): after the handle registered under `m1` was
notified that it is Running, a construction with `mediaId` `m1` yields the
handle 1, registered under `m1`, whose `_status` is `undefined` and not the
state Running. -/
theorem reattached_handle_has_no_cached_state :
    lookup Example.running "m1" = some 0 ∧
    (Media Example.android Example.argsB Example.running).1 = Except.ok 1 ∧
    lookup (Media Example.android Example.argsB Example.running).2 "m1" = some 1 ∧
    ((Media Example.android Example.argsB Example.running).2.heap[1]?).map MediaObj._status =
      some JSVal.undefined ∧
    JSVal.undefined ≠ JSVal.num Media.MEDIA_RUNNING :=
  ⟨by decide, rfl, by decide, by decide, by decide⟩

/-- C2 (amended): a construction with a non-empty `mediaId` that is already
registered yields a new handle registered under that identifier whose
`_status` is the `_status` of the handle registered before, whose `src` and
four callbacks are those of the construction call; and a State notification
changes no field of any object, so that `_status` is not the state last
notified. -/
theorem reattached_handle_copies_status_field (host : Host) (w : World) (args : List JSVal)
    (e : String) (r : Nat) (old : MediaObj)
    (hc : argscheck.conforms "sFFFFS" args = true)
    (hid : arg args 5 = JSVal.str e) (hne : e ≠ "")
    (hget : lookup w e = some r) (hheap : w.heap[r]? = some old) :
    (∃ w1 o, Media host args w = (Except.ok w.heap.length, w1) ∧
      lookup w1 e = some w.heap.length ∧
      w1.heap[w.heap.length]? = some o ∧
      o.id = e ∧ o._status = old._status ∧
      o.src = arg args 0 ∧ o.successCallback = arg args 1 ∧ o.errorCallback = arg args 2 ∧
      o.statusCallback = arg args 3 ∧ o.createCallback = arg args 4) ∧
    (∀ id value, (Media.onStatus host id Media.MEDIA_STATE value w).2.heap = w.heap) := by
  constructor
  · refine ⟨_, _, Media_reattach host args w e r old hc hid hne hget hheap,
      lookup_registered w e _ _ _ _, List.getElem?_concat_length _ _, rfl, rfl, rfl, rfl, rfl,
      rfl, rfl⟩
  · intro id value
    exact (onStatus_quiet host id Media.MEDIA_STATE value (by decide) (by decide) w).1

/-- Witness of the amended C2: the construction with `Example.argsB` in
`Example.running`, where `m1` is registered. -/
theorem reattached_handle_copies_status_field_witness :
    (argscheck.conforms "sFFFFS" Example.argsB = true ∧
      arg Example.argsB 5 = JSVal.str "m1" ∧ "m1" ≠ "" ∧
      lookup Example.running "m1" = some 0 ∧ Example.running.heap[0]? = some Example.objA) ∧
    ∃ w1 o, Media Example.android Example.argsB Example.running =
        (Except.ok Example.running.heap.length, w1) ∧
      lookup w1 "m1" = some Example.running.heap.length ∧
      w1.heap[Example.running.heap.length]? = some o ∧
      o.id = "m1" ∧ o._status = Example.objA._status ∧
      o.src = arg Example.argsB 0 ∧ o.successCallback = arg Example.argsB 1 ∧
      o.errorCallback = arg Example.argsB 2 ∧
      o.statusCallback = arg Example.argsB 3 ∧ o.createCallback = arg Example.argsB 4 :=
  ⟨by decide,
    (reattached_handle_copies_status_field Example.android Example.running Example.argsB "m1" 0
      Example.objA (by decide) (by decide) (by decide) (by decide) (by decide)).1⟩

/-- C5 (as stated, refuted): `seekTo` called with a string where a number of
milliseconds is expected does not fail; it returns and issues the command
with the string. -/
theorem seekTo_accepts_a_string :
    Media.prototype.seekTo 0 (JSVal.str "soon") Example.one =
      (Except.ok (), { Example.one with trace := Example.one.trace ++
        [Event.exec (Callback.seekDone 0) (Callback.val (JSVal.fn 2)) "Media" "seekToAudio"
          [JSVal.str "m1", JSVal.str "soon"]] }) := by
  rfl

/-- C5 (amended): the constructor rejects a malformed argument list with the
InvalidArgument error and leaves the world as it is, so that nothing is
registered and no command is issued; the methods `play`, `seekTo`,
`setVolume`, `getCurrentPosition` and `getCurrentAmplitude` of an existing
handle check nothing and issue their command with the arguments as given. -/
theorem only_the_constructor_checks_arguments (host : Host) (w : World) (args : List JSVal)
    (me : Nat) (o : MediaObj) (a b : JSVal)
    (hbad : argscheck.conforms "sFFFFS" args = false) (hobj : w.heap[me]? = some o) :
    Media host args w = (Except.error JSError.invalidArgument, w) ∧
    Media.prototype.play me a w = (Except.ok (), { w with trace := w.trace ++
      [Event.exec (Callback.val JSVal.null) (Callback.val JSVal.null) "Media"
        "startPlayingAudio" [JSVal.str o.id, o.src, a]] }) ∧
    Media.prototype.seekTo me a w = (Except.ok (), { w with trace := w.trace ++
      [Event.exec (Callback.seekDone me) (Callback.val o.errorCallback) "Media" "seekToAudio"
        [JSVal.str o.id, a]] }) ∧
    Media.prototype.setVolume me a w = (Except.ok (), { w with trace := w.trace ++
      [Event.exec (Callback.val JSVal.null) (Callback.val JSVal.null) "Media" "setVolume"
        [JSVal.str o.id, a]] }) ∧
    Media.prototype.getCurrentPosition me a b w = (Except.ok (), { w with trace := w.trace ++
      [Event.exec (Callback.positionDone me a) (Callback.val b) "Media"
        "getCurrentPositionAudio" [JSVal.str o.id]] }) ∧
    Media.prototype.getCurrentAmplitude me a b w = (Except.ok (), { w with trace := w.trace ++
      [Event.exec (Callback.amplitudeDone a) (Callback.val b) "Media"
        "getCurrentAmplitudeAudio" [JSVal.str o.id]] }) := by
  refine ⟨Media_reject host args w hbad, ?_, ?_, ?_, ?_, ?_⟩ <;>
    simp [Media.prototype.play, Media.prototype.seekTo, Media.prototype.setVolume,
      Media.prototype.getCurrentPosition, Media.prototype.getCurrentAmplitude,
      JS.andThen, JS.deref, hobj]

/-- Witness of the amended C5: the argument list `Example.argsBad` is rejected. -/
theorem only_the_constructor_checks_arguments_witness :
    argscheck.conforms "sFFFFS" Example.argsBad = false ∧
    Example.one.heap[0]? = some Example.objA ∧
    Media Example.android Example.argsBad Example.one =
      (Except.error JSError.invalidArgument, Example.one) :=
  ⟨by decide, by decide,
    (only_the_constructor_checks_arguments Example.android Example.one Example.argsBad 0
      Example.objA (JSVal.str "soon") JSVal.null (by decide) (by decide)).1⟩

/-- C6 (as stated, refuted): a construction whose `mediaId` is the empty
string yields a handle whose identifier is the generated `uuid-`, not the
empty string, and `Media.get` of the empty string is `undefined` afterwards. -/
theorem empty_mediaId_is_replaced_by_generated_id :
    (Media Example.android Example.argsEmpty World.initial).1 = Except.ok 0 ∧
    ((Media Example.android Example.argsEmpty World.initial).2.heap[0]?).map MediaObj.id =
      some "uuid-" ∧
    (Media.get "" (Media Example.android Example.argsEmpty World.initial).2).1 =
      Except.ok JSVal.undefined :=
  ⟨rfl, by decide, rfl⟩

/-- C6 (amended): a construction with a well-formed argument list returns a
new handle that is registered under its identifier, so that `Media.get` of
that identifier yields exactly this handle; the identifier is the `mediaId`
when a non-empty string is supplied, and the output of the generator when
`mediaId` is missing or the empty string. -/
theorem constructed_handle_is_registered_under_its_id (host : Host) (w : World)
    (args : List JSVal) (hc : argscheck.conforms "sFFFFS" args = true)
    (hok : w.regOK = true) :
    ∃ w1 o, Media host args w = (Except.ok w.heap.length, w1) ∧
      w1.heap[w.heap.length]? = some o ∧
      Media.get o.id w1 = (Except.ok (JSVal.media w.heap.length), w1) ∧
      (∀ e, arg args 5 = JSVal.str e → e ≠ "" → o.id = e) ∧
      ((arg args 5).truthy = false → o.id = host.createUUID w.uuids) := by
  obtain ⟨id, node, status, hrun, hgiven, hgen⟩ := Media_constructs host args w hc hok
  refine ⟨_, _, hrun, List.getElem?_concat_length _ _, ?_, hgiven, hgen⟩
  rw [Media_get_run, lookup_registered]

/-- Witness of the amended C6: the construction with `Example.argsB` in
`Example.running`. -/
theorem constructed_handle_is_registered_under_its_id_witness :
    (argscheck.conforms "sFFFFS" Example.argsB = true ∧ Example.running.regOK = true) ∧
    ∃ w1 o, Media Example.android Example.argsB Example.running =
        (Except.ok Example.running.heap.length, w1) ∧
      w1.heap[Example.running.heap.length]? = some o ∧
      Media.get o.id w1 = (Except.ok (JSVal.media Example.running.heap.length), w1) ∧
      (∀ e, arg Example.argsB 5 = JSVal.str e → e ≠ "" → o.id = e) ∧
      ((arg Example.argsB 5).truthy = false →
        o.id = Example.android.createUUID Example.running.uuids) :=
  ⟨by decide,
    constructed_handle_is_registered_under_its_id Example.android Example.running Example.argsB
      (by decide) (by decide)⟩

/-- C7: a Duration notification for a registered handle stores the value as
it is, so that `getDuration()` returns it, and adds nothing to the trace, so
that no callback is invoked; and a handle that has just been constructed,
whether under a fresh or under an already registered identifier, returns -1
from `getDuration()`, and keeps doing so after any sequence of calls into the
module that contains no Duration notification for its identifier. -/
theorem getDuration_returns_notified_value_else_unknown (host : Host)
    (w : World) (id : String) (r : Nat) (o : MediaObj) (d : JSVal)
    (w0 : World) (args : List JSVal) (ops : List Op)
    (hget : lookup w id = some r) (hheap : w.heap[r]? = some o)
    (hc : argscheck.conforms "sFFFFS" args = true) (hok : w0.regOK = true) :
    (∃ w1, Media.onStatus host id Media.MEDIA_DURATION d w = (Except.ok (), w1) ∧
      w1 = { w with heap := w.heap.set r { o with _duration := d } } ∧
      w1.trace = w.trace ∧
      Media.prototype.getDuration r w1 = (Except.ok d, w1)) ∧
    (∃ w1 new, Media host args w0 = (Except.ok w0.heap.length, w1) ∧
      w1.heap[w0.heap.length]? = some new ∧
      Media.prototype.getDuration w0.heap.length w1 = (Except.ok (JSVal.num (-1)), w1) ∧
      ((∀ op ∈ ops, op.notifiesDuration new.id = false) →
        (Media.prototype.getDuration w0.heap.length (runAll host ops w1)).1 =
          Except.ok (JSVal.num (-1)))) := by
  constructor
  · have hlt : r < w.heap.length := by
      by_contra hge
      rw [List.getElem?_eq_none (by omega)] at hheap
      cases hheap
    refine ⟨_, ?_, rfl, rfl, ?_⟩
    · simp [Media.onStatus, JS.andThen, hget, JSVal.strictEq, Media.MEDIA_STATE,
        Media.MEDIA_DURATION, JS.setDuration, hheap]
    · simp [Media.prototype.getDuration, JS.andThen, JS.deref, hlt]
  · obtain ⟨idn, node, status, hrun, -, -⟩ := Media_constructs host args w0 hc hok
    have hnew := List.getElem?_concat_length w0.heap
      { id := idn, node := node, _status := status, src := arg args 0,
        successCallback := arg args 1, errorCallback := arg args 2,
        statusCallback := arg args 3, createCallback := arg args 4,
        _duration := JSVal.num (-1), _position := JSVal.num (-1) }
    have hreg := Media_regOK host args w0 hok
    rw [hrun] at hreg
    have hlen : w0.heap.length < (w0.heap ++
        [({ id := idn, node := node, _status := status, src := arg args 0,
            successCallback := arg args 1, errorCallback := arg args 2,
            statusCallback := arg args 3, createCallback := arg args 4,
            _duration := JSVal.num (-1), _position := JSVal.num (-1) } : MediaObj)]).length := by
      simp
    refine ⟨_, _, hrun, hnew, ?_, ?_⟩
    · simp [Media.prototype.getDuration, JS.andThen, JS.deref]
    · intro hops
      obtain ⟨-, o2, ho2, -, hd2⟩ :=
        runAll_holds host ops idn w0.heap.length (JSVal.num (-1)) _
          ⟨hreg, _, hnew, rfl, rfl⟩ hops
      simp [Media.prototype.getDuration, JS.andThen, JS.deref, ho2, hd2]

/-- Witness of C7: the duration 5000 notified for `m1` in `Example.one` is
returned, and the handle constructed over `m1` in `Example.running` still
returns -1 after the calls `Example.calls`. -/
theorem getDuration_returns_notified_value_else_unknown_witness :
    (lookup Example.one "m1" = some 0 ∧ Example.one.heap[0]? = some Example.objA ∧
      argscheck.conforms "sFFFFS" Example.argsB = true ∧ Example.running.regOK = true) ∧
    (∃ w1, Media.onStatus Example.android "m1" Media.MEDIA_DURATION (JSVal.num 5000)
        Example.one = (Except.ok (), w1) ∧
      Media.prototype.getDuration 0 w1 = (Except.ok (JSVal.num 5000), w1)) ∧
    (Media.prototype.getDuration 1 (runAll Example.android Example.calls Example.reattached)).1 =
      Except.ok (JSVal.num (-1)) := by
  have h := getDuration_returns_notified_value_else_unknown Example.android Example.one "m1" 0
    Example.objA (JSVal.num 5000) Example.running Example.argsB Example.calls
    (by decide) (by decide) (by decide) (by decide)
  refine ⟨by decide, ?_, ?_⟩
  · obtain ⟨w1, h1, -, -, h2⟩ := h.1
    exact ⟨w1, h1, h2⟩
  · obtain ⟨w1, new, hrun, hnew, -, himp⟩ := h.2
    have hw1 : Media Example.android Example.argsB Example.running =
        (Except.ok 1, Example.reattached) := rfl
    rw [hw1] at hrun
    have hw : w1 = Example.reattached := (Prod.mk.inj hrun).2.symm
    subst hw
    have hobj : Example.reattached.heap[Example.running.heap.length]? =
        some { Example.objA with src := JSVal.str "b.mp3", successCallback := JSVal.fn 5,
                                 errorCallback := JSVal.fn 6, statusCallback := JSVal.fn 7,
                                 createCallback := JSVal.fn 8 } := by decide
    rw [hobj] at hnew
    cases hnew
    exact himp (by decide)

/-- C8: `seekTo(ms)` on a handle issues exactly one command `seekToAudio`
carrying the identifier and `ms` and changes no object, so that the cached
position is still the old one; when the success continuation of that command
is later delivered with the reported value `p`, the cached position of that
handle becomes `p`, whatever `ms` was. -/
theorem seekTo_caches_the_reported_position (w : World) (me : Nat) (o : MediaObj)
    (ms p : JSVal) (hobj : w.heap[me]? = some o) :
    ∃ w1, Media.prototype.seekTo me ms w = (Except.ok (), w1) ∧
      w1 = { w with trace := w.trace ++
        [Event.exec (Callback.seekDone me) (Callback.val o.errorCallback) "Media" "seekToAudio"
          [JSVal.str o.id, ms]] } ∧
      w1.heap[me]? = some o ∧
      (∀ u o1, u.heap[me]? = some o1 →
        (Callback.seekDone me).run p u =
          (Except.ok (), { u with heap := u.heap.set me { o1 with _position := p } }) ∧
        ((Callback.seekDone me).run p u).2.heap[me]? = some { o1 with _position := p }) := by
  refine ⟨_, ?_, rfl, hobj, ?_⟩
  · simp [Media.prototype.seekTo, JS.andThen, JS.deref, hobj]
  · intro u o1 hu
    have hlt : me < u.heap.length := by
      by_contra hge
      rw [List.getElem?_eq_none (by omega)] at hu
      cases hu
    simp [Callback.run, JS.setPosition, hu, hlt]

/-- Witness of C8: `seekTo(1500)` on the handle of `Example.one`, completed
with the reported value 1480. -/
theorem seekTo_caches_the_reported_position_witness :
    Example.one.heap[0]? = some Example.objA ∧
    ∃ w1, Media.prototype.seekTo 0 (JSVal.num 1500) Example.one = (Except.ok (), w1) ∧
      w1 = { Example.one with trace := Example.one.trace ++
        [Event.exec (Callback.seekDone 0) (Callback.val Example.objA.errorCallback) "Media"
          "seekToAudio" [JSVal.str Example.objA.id, JSVal.num 1500]] } ∧
      w1.heap[0]? = some Example.objA ∧
      (∀ u o1, u.heap[0]? = some o1 →
        (Callback.seekDone 0).run (JSVal.num 1480) u =
          (Except.ok (), { u with heap := u.heap.set 0 { o1 with _position := JSVal.num 1480 } }) ∧
        ((Callback.seekDone 0).run (JSVal.num 1480) u).2.heap[0]? =
          some { o1 with _position := JSVal.num 1480 }) :=
  ⟨by decide,
    seekTo_caches_the_reported_position Example.one 0 Example.objA (JSVal.num 1500)
      (JSVal.num 1480) (by decide)⟩

/-- C10: on a platform other than `ios`, `setRate(rate)` issues no command and
invokes no callback: it returns after a console warning and changes no object
and no registry entry; on `ios` it issues exactly one command `setRate`
carrying the identifier and the rate. -/
theorem setRate_is_gated_by_platform (host : Host) (w : World) (me : Nat) (o : MediaObj)
    (rate : JSVal) (hobj : w.heap[me]? = some o) :
    (host.platformId ≠ "ios" →
      Media.prototype.setRate host me rate w =
        (Except.ok (), { w with trace := w.trace ++
          [Event.consoleWarn [JSVal.str "media.setRate method is currently not supported for",
            JSVal.str host.platformId, JSVal.str "platform."]] })) ∧
    (host.platformId = "ios" →
      Media.prototype.setRate host me rate w =
        (Except.ok (), { w with trace := w.trace ++
          [Event.exec (Callback.val JSVal.null) (Callback.val JSVal.null) "Media" "setRate"
            [JSVal.str o.id, rate]] })) := by
  constructor
  · intro hp
    simp [Media.prototype.setRate, hp]
  · intro hp
    simp [Media.prototype.setRate, hp, JS.andThen, JS.deref, hobj]

/-- Witness of C10 on the handle of `Example.one`, on Android and on iOS. -/
theorem setRate_is_gated_by_platform_witness :
    Example.one.heap[0]? = some Example.objA ∧
    Media.prototype.setRate Example.android 0 (JSVal.num 2) Example.one =
      (Except.ok (), { Example.one with trace := Example.one.trace ++
        [Event.consoleWarn [JSVal.str "media.setRate method is currently not supported for",
          JSVal.str "android", JSVal.str "platform."]] }) ∧
    Media.prototype.setRate Example.ios 0 (JSVal.num 2) Example.one =
      (Except.ok (), { Example.one with trace := Example.one.trace ++
        [Event.exec (Callback.val JSVal.null) (Callback.val JSVal.null) "Media" "setRate"
          [JSVal.str "m1", JSVal.num 2]] }) :=
  ⟨by decide,
    (setRate_is_gated_by_platform Example.android Example.one 0 Example.objA (JSVal.num 2)
      (by decide)).1 (by decide),
    (setRate_is_gated_by_platform Example.ios Example.one 0 Example.objA (JSVal.num 2)
      (by decide)).2 (by decide)⟩

end MediaJs
